import Mathlib

/-!
# llama_node.cpp: the `LlamaContext` addon class

A shallow embedding of `src/chat-service/src/llama_node.cpp`.

* The inference engine (`llama.h`) is external.  It is modelled as an arbitrary
  deterministic state machine `Engine σ`: every entry point the source calls
  takes the engine state and returns its result together with the next state.
  Nothing is assumed about what the engine answers.
* C++ `int` values are mathematical integers (`Int`).  The only arithmetic the
  source performs is `n_tokens + i` with `0 ≤ i < 256`; signed overflow is
  undefined in C++, so the model is exact wherever the source's behaviour is defined.
* `std::string result` is the list of its bytes.  `result.append(buffer, len)`
  appends the first `len` bytes the engine wrote; a length beyond what was written
  reads past `char buffer[8]` in the source and appends nothing more here.
* The allocation of the token buffer `std::vector<llama_token> tokens(n_ctx)` is
  not modelled; the engine's tokenizer reports the buffer's contents.
* Pointers are natural numbers, `0` for `nullptr`.  The class has no member
  initialisers, so the members of a fresh object are taken as given.
* Every engine call the source makes is appended to a call log, so that
  statements about which calls are issued, in which order and with which
  arguments, can be made.
-/

namespace LlamaNode

/-! ## Generation: `LlamaContext::Generate` -/

/-- The type `llama_token` of the engine: an integer vocabulary index. -/
abbrev llama_token := Int

/-- The bytes of a `std::string`. -/
abbrev Text := List Nat

/-- The entry points of `llama.h` that `Generate` calls, over an engine state `σ`
(the `llama_context* ctx` and everything behind it).

* `llama_tokenize ctx text n_max_tokens` gives the returned count and the contents
  of the token buffer afterwards;
* `llama_eval ctx tokens n_tokens n_past n_threads` gives the return code;
* `llama_get_logits ctx` (its result is not used by the source);
* `llama_sample_top_p_top_k ctx` gives the sampled token;
* `llama_token_eos` is the end-of-sequence token;
* `llama_token_to_piece ctx token length` gives the returned length and the
  contents of the byte buffer afterwards. -/
structure Engine (σ : Type) where
  llama_tokenize : σ → String → Int → Int × List llama_token × σ
  llama_eval : σ → List llama_token → Int → Int → Int → Int × σ
  llama_get_logits : σ → σ
  llama_sample_top_p_top_k : σ → llama_token × σ
  llama_token_eos : llama_token
  llama_token_to_piece : σ → llama_token → Nat → Int × List Nat × σ

/-- One engine call as issued by `Generate`, with the arguments that matter:
the buffer capacity given to the tokenizer; the tokens, count and position
(`n_past`) given to `llama_eval`; the token given to `llama_token_to_piece`. -/
inductive Call where
  | tokenize (n_max_tokens : Int)
  | eval (tokens : List llama_token) (n_tokens : Int) (n_past : Int)
  | get_logits
  | sample
  | token_to_piece (token : llama_token)
  deriving DecidableEq, Repr

/-- The JavaScript exceptions the source throws. -/
inductive JsError where
  | wrong_number_of_arguments
  | failed_to_load_model
  | failed_to_create_context
  | failed_to_tokenize_prompt
  | failed_to_evaluate_prompt
  deriving DecidableEq, Repr

/-- What `Generate` hands back to JavaScript: a thrown exception (with
`env.Null()`), or a `Napi::String` holding `result`. -/
inductive Returned where
  | error (e : JsError)
  | text (result : Text)
  deriving DecidableEq, Repr

/-- The outcome of one `Generate` call: the returned value, the engine calls
issued in order, and the engine state afterwards. -/
structure Outcome (σ : Type) where
  value : Returned
  calls : List Call
  ctx : σ

/-- The constant `max_tokens_to_generate` of `Generate`. -/
def max_tokens_to_generate : Nat := 256

/-- The size of `char buffer[8]`. -/
def buffer_size : Nat := 8

/-- The loop `for (int i = 0; i < max_tokens_to_generate; ++i)` of `Generate`,
entered at index `i` with `fuel = max_tokens_to_generate - i` iterations left. -/
def decode {σ : Type} (E : Engine σ) (n_threads n_tokens : Int) :
    Nat → Nat → σ → Text → List Call → Outcome σ
  | 0, _, s, result, log => ⟨.text result, log, s⟩
  | fuel + 1, i, s, result, log =>
    let s1 := E.llama_get_logits s
    let sampled := E.llama_sample_top_p_top_k s1
    let token := sampled.1
    let log1 := log ++ [Call.get_logits, Call.sample]
    if token = E.llama_token_eos then
      ⟨.text result, log1, sampled.2⟩
    else
      let piece := E.llama_token_to_piece sampled.2 token buffer_size
      let len := piece.1
      let log2 := log1 ++ [Call.token_to_piece token]
      if len < 0 then
        ⟨.text result, log2, piece.2.2⟩
      else
        let result1 := result ++ piece.2.1.take len.toNat
        let ev := E.llama_eval piece.2.2 [token] 1 (n_tokens + i) n_threads
        let log3 := log2 ++ [Call.eval [token] 1 (n_tokens + i)]
        if ev.1 ≠ 0 then
          ⟨.text result1, log3, ev.2⟩
        else
          decode E n_threads n_tokens fuel (i + 1) ev.2 result1 log3

/-- The method `LlamaContext::Generate` on an object with fields `n_threads`,
`n_ctx` and engine state `ctx`; `info` is the list of (string) arguments. -/
def Generate {σ : Type} (E : Engine σ) (n_threads n_ctx : Int) (ctx : σ)
    (info : List String) : Outcome σ :=
  match info with
  | [] => ⟨.error .wrong_number_of_arguments, [], ctx⟩
  | prompt :: _ =>
    let tk := E.llama_tokenize ctx prompt n_ctx
    let n_tokens := tk.1
    let log := [Call.tokenize n_ctx]
    if n_tokens < 0 then
      ⟨.error .failed_to_tokenize_prompt, log, tk.2.2⟩
    else
      let ev := E.llama_eval tk.2.2 tk.2.1 n_tokens 0 n_threads
      let log1 := log ++ [Call.eval tk.2.1 n_tokens 0]
      if ev.1 ≠ 0 then
        ⟨.error .failed_to_evaluate_prompt, log1, ev.2⟩
      else
        decode E n_threads n_tokens max_tokens_to_generate 0 ev.2 [] log1

/-! ### Observing the engine step by step

To speak about "the token sampled at decoding step `i`" for an arbitrary
engine, the answers the engine gives during one full loop iteration are
collected, and the engine state is followed through the iterations. -/

/-- The answers of the engine during one full iteration of the loop at index `i`
from state `s`: the sampled token, the length and buffer of its piece, the return
code of its evaluation, and the state afterwards. -/
structure StepObs (σ : Type) where
  token : llama_token
  len : Int
  buffer : List Nat
  rc : Int
  next : σ

/-- The engine's answers in iteration `i` entered in state `s`. -/
def stepObs {σ : Type} (E : Engine σ) (n_threads n_tokens : Int) (i : Nat) (s : σ) :
    StepObs σ :=
  let sampled := E.llama_sample_top_p_top_k (E.llama_get_logits s)
  let piece := E.llama_token_to_piece sampled.2 sampled.1 buffer_size
  let ev := E.llama_eval piece.2.2 [sampled.1] 1 (n_tokens + i) n_threads
  ⟨sampled.1, piece.1, piece.2.1, ev.1, ev.2⟩

/-- The bytes appended for a step: `result.append(buffer, len)`. -/
def StepObs.piece {σ : Type} (o : StepObs σ) : Text := o.buffer.take o.len.toNat

/-- The engine calls of one full iteration at index `i`. -/
def StepObs.calls {σ : Type} (o : StepObs σ) (n_tokens : Int) (i : Nat) : List Call :=
  [Call.get_logits, Call.sample, Call.token_to_piece o.token,
   Call.eval [o.token] 1 (n_tokens + i)]

/-- The engine state after `k` full iterations, the first at index `i` in state `s`. -/
def run {σ : Type} (E : Engine σ) (n_threads n_tokens : Int) : Nat → Nat → σ → σ
  | 0, _, s => s
  | k + 1, i, s => run E n_threads n_tokens k (i + 1) (stepObs E n_threads n_tokens i s).next

/-- The engine's answers in decoding step `j` of a request whose decoding loop is
entered in state `s0` (the state after the prompt evaluation). -/
def obsAt {σ : Type} (E : Engine σ) (n_threads n_tokens : Int) (s0 : σ) (j : Nat) :
    StepObs σ :=
  stepObs E n_threads n_tokens j (run E n_threads n_tokens j 0 s0)

/-- The concatenation of the pieces of steps `0 .. k-1`. -/
def textUpTo {σ : Type} (E : Engine σ) (n_threads n_tokens : Int) (s0 : σ) (k : Nat) :
    Text :=
  (List.range k).flatMap fun j => (obsAt E n_threads n_tokens s0 j).piece

/-- The engine calls of the full iterations `0 .. k-1`. -/
def callsUpTo {σ : Type} (E : Engine σ) (n_threads n_tokens : Int) (s0 : σ) (k : Nat) :
    List Call :=
  (List.range k).flatMap fun j => (obsAt E n_threads n_tokens s0 j).calls n_tokens j

/-- Step `j` runs to its end and the loop goes on: the token is not end-of-sequence,
its piece has a non-negative length, and its evaluation succeeds. -/
def StepObs.continues {σ : Type} (o : StepObs σ) (eos : llama_token) : Prop :=
  o.token ≠ eos ∧ 0 ≤ o.len ∧ o.rc = 0

instance {σ : Type} (o : StepObs σ) (eos : llama_token) : Decidable (o.continues eos) := by
  unfold StepObs.continues; infer_instance

/-- The prompt phase of a request, as the engine answers it: the tokenizer's
count and buffer, the return code of the prompt evaluation, and the state in
which the decoding loop is entered. -/
structure PromptObs (σ : Type) where
  n_tokens : Int
  tokens : List llama_token
  rc : Int
  s0 : σ

/-- The engine's answers in the prompt phase. -/
def promptObs {σ : Type} (E : Engine σ) (n_threads n_ctx : Int) (ctx : σ) (prompt : String) :
    PromptObs σ :=
  let tk := E.llama_tokenize ctx prompt n_ctx
  let ev := E.llama_eval tk.2.2 tk.2.1 tk.1 0 n_threads
  ⟨tk.1, tk.2.1, ev.1, ev.2⟩

/-- The `(tokens, count, position)` of the `llama_eval` calls in a call log. -/
def evalCalls : List Call → List (List llama_token × Int × Int)
  | [] => []
  | Call.eval t n p :: cs => (t, n, p) :: evalCalls cs
  | _ :: cs => evalCalls cs

/-- The number of `llama_token_to_piece` calls in a call log. -/
def pieceCalls : List Call → Nat
  | [] => 0
  | Call.token_to_piece _ :: cs => pieceCalls cs + 1
  | _ :: cs => pieceCalls cs


/-- The calls of a prompt phase that succeeds. -/
def PromptObs.calls {σ : Type} (p : PromptObs σ) (n_ctx : Int) : List Call :=
  [Call.tokenize n_ctx, Call.eval p.tokens p.n_tokens 0]

/-- The prompt phase succeeds: the tokenizer's count is not negative and the
prompt evaluation returns `0`. -/
def promptOk {σ : Type} (E : Engine σ) (n_threads n_ctx : Int) (ctx : σ) (prompt : String) :
    Prop :=
  0 ≤ (promptObs E n_threads n_ctx ctx prompt).n_tokens ∧
    (promptObs E n_threads n_ctx ctx prompt).rc = 0

instance {σ : Type} (E : Engine σ) (n_threads n_ctx : Int) (ctx : σ) (prompt : String) :
    Decidable (promptOk E n_threads n_ctx ctx prompt) := by
  unfold promptOk; infer_instance

/-- The engine's answers in decoding step `j` of the request `prompt`. -/
def stepOf {σ : Type} (E : Engine σ) (n_threads n_ctx : Int) (ctx : σ) (prompt : String)
    (j : Nat) : StepObs σ :=
  obsAt E n_threads (promptObs E n_threads n_ctx ctx prompt).n_tokens
    (promptObs E n_threads n_ctx ctx prompt).s0 j

/-- The concatenation of the pieces of the steps `0 .. k-1` of the request `prompt`. -/
def textOf {σ : Type} (E : Engine σ) (n_threads n_ctx : Int) (ctx : σ) (prompt : String)
    (k : Nat) : Text :=
  textUpTo E n_threads (promptObs E n_threads n_ctx ctx prompt).n_tokens
    (promptObs E n_threads n_ctx ctx prompt).s0 k

/-- The calls of the full decoding iterations `0 .. k-1` of the request `prompt`. -/
def callsOf {σ : Type} (E : Engine σ) (n_threads n_ctx : Int) (ctx : σ) (prompt : String)
    (k : Nat) : List Call :=
  callsUpTo E n_threads (promptObs E n_threads n_ctx ctx prompt).n_tokens
    (promptObs E n_threads n_ctx ctx prompt).s0 k

/-- The stop reasons of the specification's `GenerationResult`, for the four
exits of the decoding loop of the source. -/
inductive StopReason where
  | EOS
  | DecodeFailure
  | EvaluationFailure
  | MaxTokensReached
  deriving DecidableEq, Repr

/-- The exit the loop takes, read off the engine's answers `obs j` at the steps
`j = i, i+1, ...` with `fuel` iterations left: the reason, and the index of the
step at which the loop is left (`max_tokens_to_generate` when the bound is hit). -/
def stopScan {σ : Type} (obs : Nat → StepObs σ) (eos : llama_token) :
    Nat → Nat → StopReason × Nat
  | 0, i => (.MaxTokensReached, i)
  | fuel + 1, i =>
    if (obs i).token = eos then (.EOS, i)
    else if (obs i).len < 0 then (.DecodeFailure, i)
    else if (obs i).rc ≠ 0 then (.EvaluationFailure, i)
    else stopScan obs eos fuel (i + 1)

/-- The number of pieces appended when the loop is left at step `k` for reason `r`:
the piece of step `k` itself is appended only if the loop is left after it. -/
def piecesAt : StopReason × Nat → Nat
  | (.EvaluationFailure, k) => k + 1
  | (_, k) => k

/-- The calls of the last, unfinished iteration, by stop reason. -/
def lastCalls {σ : Type} (o : StepObs σ) (n_tokens : Int) (k : Nat) : StopReason → List Call
  | .EOS => [Call.get_logits, Call.sample]
  | .DecodeFailure => [Call.get_logits, Call.sample, Call.token_to_piece o.token]
  | .EvaluationFailure => o.calls n_tokens k
  | .MaxTokensReached => []

/-- The stop reason and stop step of a request whose prompt phase succeeded. -/
def stopOf {σ : Type} (E : Engine σ) (n_threads n_ctx : Int) (ctx : σ) (prompt : String) :
    StopReason × Nat :=
  stopScan (stepOf E n_threads n_ctx ctx prompt) E.llama_token_eos max_tokens_to_generate 0

/-- A scripted engine, for concrete runs.  Its state counts the sampling calls.
The tokenizer reports `n` tokens; the prompt evaluation returns `prc`; the
`k`-th sampling call gives `toks[k]` (end-of-sequence, `2`, once the script is
over); the evaluation after the `k`-th sampling call returns `evals[k]` (`0` once
the script is over); a token `t ≥ 0` decodes to the one byte `t`, a negative
token fails to decode. -/
def scripted (n prc : Int) (toks : List llama_token) (evals : List Int) : Engine Nat where
  llama_tokenize s _ _ := (n, List.replicate n.toNat 1, s)
  llama_eval s _ _ _ _ := (if s = 0 then prc else evals.getD (s - 1) 0, s)
  llama_get_logits s := s
  llama_sample_top_p_top_k s := (toks.getD s 2, s + 1)
  llama_token_eos := 2
  llama_token_to_piece s t _ := (if t < 0 then -1 else 1, [t.toNat], s)

/-! ## Lifecycle: the constructor and the destructor -/

/-- A native pointer (`llama_model*`, `llama_context*`); `0` is `nullptr`. -/
abbrev Handle := Nat

/-- The `llama.h` calls of the constructor and the destructor. -/
inductive NativeCall where
  | backend_init
  | backend_free
  | load_model (path : String)
  | free_model (model : Handle)
  | new_context (model : Handle) (n_ctx : Int) (n_threads : Int)
  | free (ctx : Handle)
  deriving DecidableEq, Repr

/-- The data members of `class LlamaContext`. -/
structure LlamaContext where
  ctx : Handle
  model : Handle
  model_path : String
  n_threads : Int
  n_ctx : Int
  deriving DecidableEq, Repr

/-- The arguments of the constructor call: their number, and the values of the
first three as converted by `Utf8Value()` and `Int32Value()`. -/
structure CallbackInfo where
  length : Nat
  arg0 : String
  arg1 : Int
  arg2 : Int

/-- What the engine answers to the constructor: the model pointer for a path,
and the context pointer for a model, a capacity and a thread count. -/
structure Loader where
  llama_load_model_from_file : String → Handle
  llama_new_context_with_model : Handle → Int → Int → Handle

/-- The result of running the constructor: the object's members afterwards, the
exception thrown if any, and the native calls made. -/
structure Constructed where
  self : LlamaContext
  thrown : Option JsError
  calls : List NativeCall

/-- The constructor `LlamaContext::LlamaContext`.  The class has no member
initialisers, so the members start from whatever the fresh object `fresh` holds. -/
def LlamaContext.new (L : Loader) (fresh : LlamaContext) (info : CallbackInfo) : Constructed :=
  if info.length < 3 then
    ⟨fresh, some .wrong_number_of_arguments, []⟩
  else
    let o1 := { fresh with model_path := info.arg0, n_threads := info.arg1, n_ctx := info.arg2 }
    let log := [NativeCall.backend_init, NativeCall.load_model o1.model_path]
    let o2 := { o1 with model := L.llama_load_model_from_file o1.model_path }
    if o2.model = 0 then
      ⟨o2, some .failed_to_load_model, log⟩
    else
      let log1 := log ++ [NativeCall.new_context o2.model o2.n_ctx o2.n_threads]
      let o3 := { o2 with ctx := L.llama_new_context_with_model o2.model o2.n_ctx o2.n_threads }
      if o3.ctx = 0 then
        ⟨o3, some .failed_to_create_context, log1 ++ [NativeCall.free_model o3.model]⟩
      else
        ⟨o3, none, log1⟩

/-- The destructor `LlamaContext::~LlamaContext`: the native calls it makes. -/
def LlamaContext.delete (o : LlamaContext) : List NativeCall :=
  (if o.ctx ≠ 0 then [NativeCall.free o.ctx] else []) ++
  (if o.model ≠ 0 then [NativeCall.free_model o.model] else []) ++
  [NativeCall.backend_free]

/-- An event in the life of the process: a constructor call, or the destruction
of the `k`-th object among those constructed and not yet destroyed. -/
inductive Op where
  | construct (L : Loader) (fresh : LlamaContext) (info : CallbackInfo)
  | destroy (k : Nat)

/-- The process: the objects constructed and not yet destroyed, each with the
flag "its constructor threw nothing", and the native calls made so far. -/
structure Process where
  objects : List (LlamaContext × Bool)
  log : List NativeCall

/-- One event. Destroying an object that does not exist does nothing. -/
def Process.step (p : Process) : Op → Process
  | .construct L fresh info =>
    let c := LlamaContext.new L fresh info
    ⟨p.objects ++ [(c.self, c.thrown.isNone)], p.log ++ c.calls⟩
  | .destroy k =>
    match p.objects.get? k with
    | none => p
    | some o => ⟨p.objects.eraseIdx k, p.log ++ o.1.delete⟩

/-- A sequence of events, from the left. -/
def Process.run (p : Process) (ops : List Op) : Process := ops.foldl Process.step p

/-- The process at its start. -/
def Process.start : Process := ⟨[], []⟩

/-- The number of live instances: objects whose constructor succeeded and that
are not yet destroyed. -/
def Process.live (p : Process) : Nat := (p.objects.filter fun o => o.2).length

/-- The constructor calls among the events that receive at least three arguments. -/
def constructions : List Op → Nat
  | [] => 0
  | .construct _ _ info :: ops => (if info.length < 3 then 0 else 1) + constructions ops
  | .destroy _ :: ops => constructions ops

/-- The constructor calls among the events. -/
def constructorCalls : List Op → Nat
  | [] => 0
  | .construct _ _ _ :: ops => 1 + constructorCalls ops
  | .destroy _ :: ops => constructorCalls ops

/-- A loader that answers every call with the same two pointers. -/
def fixedLoader (model ctx : Handle) : Loader := ⟨fun _ => model, fun _ _ _ => ctx⟩

/-- Some fresh object memory. -/
def freshObject (ctx model : Handle) : LlamaContext := ⟨ctx, model, "", 0, 0⟩

/-! ### The decoding loop, one iteration at a time -/

section Loop

variable {σ : Type} (E : Engine σ) (n_threads n_tokens : Int)

theorem decode_zero (i : Nat) (s : σ) (result : Text) (log : List Call) :
    decode E n_threads n_tokens 0 i s result log = ⟨.text result, log, s⟩ := rfl

/-- An iteration whose token is not end-of-sequence, whose piece has a length
`≥ 0` and whose evaluation succeeds appends the piece and goes on. -/
theorem decode_succ_continue (fuel i : Nat) (s : σ) (result : Text) (log : List Call)
    (h : (stepObs E n_threads n_tokens i s).continues E.llama_token_eos) :
    decode E n_threads n_tokens (fuel + 1) i s result log =
      decode E n_threads n_tokens fuel (i + 1) (stepObs E n_threads n_tokens i s).next
        (result ++ (stepObs E n_threads n_tokens i s).piece)
        (log ++ (stepObs E n_threads n_tokens i s).calls n_tokens i) := by
  obtain ⟨h1, h2, h3⟩ := h
  simp only [stepObs] at h1 h2 h3
  rw [decode]
  simp only [stepObs, StepObs.piece, StepObs.calls]
  rw [if_neg h1, if_neg (not_lt.mpr h2), if_neg (not_not.mpr h3)]
  simp [List.append_assoc]

/-- An iteration that samples end-of-sequence stops after the sampling call. -/
theorem decode_succ_eos (fuel i : Nat) (s : σ) (result : Text) (log : List Call)
    (h : (stepObs E n_threads n_tokens i s).token = E.llama_token_eos) :
    (decode E n_threads n_tokens (fuel + 1) i s result log).value = .text result ∧
    (decode E n_threads n_tokens (fuel + 1) i s result log).calls =
      log ++ [Call.get_logits, Call.sample] := by
  simp only [stepObs] at h
  rw [decode]
  simp only []
  rw [if_pos h]
  exact ⟨rfl, rfl⟩

/-- An iteration whose piece has a negative length stops after the decoding call. -/
theorem decode_succ_len (fuel i : Nat) (s : σ) (result : Text) (log : List Call)
    (h1 : (stepObs E n_threads n_tokens i s).token ≠ E.llama_token_eos)
    (h2 : (stepObs E n_threads n_tokens i s).len < 0) :
    (decode E n_threads n_tokens (fuel + 1) i s result log).value = .text result ∧
    (decode E n_threads n_tokens (fuel + 1) i s result log).calls =
      log ++ [Call.get_logits, Call.sample,
        Call.token_to_piece (stepObs E n_threads n_tokens i s).token] := by
  simp only [stepObs] at h1 h2
  rw [decode]
  simp only [stepObs]
  rw [if_neg h1, if_pos h2]
  simp [List.append_assoc]

/-- An iteration whose evaluation fails stops after that call, the piece appended. -/
theorem decode_succ_rc (fuel i : Nat) (s : σ) (result : Text) (log : List Call)
    (h1 : (stepObs E n_threads n_tokens i s).token ≠ E.llama_token_eos)
    (h2 : 0 ≤ (stepObs E n_threads n_tokens i s).len)
    (h3 : (stepObs E n_threads n_tokens i s).rc ≠ 0) :
    (decode E n_threads n_tokens (fuel + 1) i s result log).value =
      .text (result ++ (stepObs E n_threads n_tokens i s).piece) ∧
    (decode E n_threads n_tokens (fuel + 1) i s result log).calls =
      log ++ (stepObs E n_threads n_tokens i s).calls n_tokens i := by
  simp only [stepObs] at h1 h2 h3
  rw [decode]
  simp only [stepObs, StepObs.piece, StepObs.calls]
  rw [if_neg h1, if_neg (not_lt.mpr h2), if_pos h3]
  simp [List.append_assoc]

theorem run_succ (k : Nat) : ∀ (i : Nat) (s : σ),
    run E n_threads n_tokens (k + 1) i s =
      (stepObs E n_threads n_tokens (i + k) (run E n_threads n_tokens k i s)).next := by
  induction k with
  | zero => intro i s; simp [run]
  | succ k ih =>
    intro i s
    rw [run, ih (i + 1), show i + 1 + k = i + (k + 1) by omega]
    rfl

theorem run_next (s0 : σ) (i : Nat) :
    run E n_threads n_tokens (i + 1) 0 s0 = (obsAt E n_threads n_tokens s0 i).next := by
  rw [run_succ, Nat.zero_add]; rfl

theorem textUpTo_succ (s0 : σ) (k : Nat) :
    textUpTo E n_threads n_tokens s0 (k + 1) =
      textUpTo E n_threads n_tokens s0 k ++ (obsAt E n_threads n_tokens s0 k).piece := by
  simp [textUpTo, List.range_succ]

theorem callsUpTo_succ (s0 : σ) (k : Nat) :
    callsUpTo E n_threads n_tokens s0 (k + 1) =
      callsUpTo E n_threads n_tokens s0 k ++ (obsAt E n_threads n_tokens s0 k).calls n_tokens k := by
  simp [callsUpTo, List.range_succ]

/-- One iteration that goes on, in the state reached after `i` full iterations. -/
theorem decode_next (s0 : σ) (P : List Call) (fuel i : Nat)
    (h : (obsAt E n_threads n_tokens s0 i).continues E.llama_token_eos) :
    decode E n_threads n_tokens (fuel + 1) i (run E n_threads n_tokens i 0 s0)
        (textUpTo E n_threads n_tokens s0 i) (P ++ callsUpTo E n_threads n_tokens s0 i) =
      decode E n_threads n_tokens fuel (i + 1) (run E n_threads n_tokens (i + 1) 0 s0)
        (textUpTo E n_threads n_tokens s0 (i + 1))
        (P ++ callsUpTo E n_threads n_tokens s0 (i + 1)) := by
  rw [decode_succ_continue E n_threads n_tokens fuel i _ _ _ h, run_next, textUpTo_succ,
    callsUpTo_succ, List.append_assoc]
  rfl

/-- While every step goes on, the loop reaches step `k` with the pieces of the
steps `0 .. k-1` accumulated and their calls issued. -/
theorem decode_reach (s0 : σ) (P : List Call) (k : Nat) :
    ∀ fuel : Nat,
      (∀ j, j < k → (obsAt E n_threads n_tokens s0 j).continues E.llama_token_eos) →
      decode E n_threads n_tokens (k + fuel) 0 s0 [] P =
        decode E n_threads n_tokens fuel k (run E n_threads n_tokens k 0 s0)
          (textUpTo E n_threads n_tokens s0 k) (P ++ callsUpTo E n_threads n_tokens s0 k) := by
  induction k with
  | zero => intro fuel _; simp [run, textUpTo, callsUpTo]
  | succ k ih =>
    intro fuel h
    rw [show k + 1 + fuel = k + (fuel + 1) by omega,
      ih (fuel + 1) (fun j hj => h j (Nat.lt_succ_of_lt hj)),
      decode_next E n_threads n_tokens s0 P fuel k (h k (Nat.lt_succ_self k))]

/-- The exit of the loop, whatever the engine answers: the text is the
concatenation of the pieces appended up to the stop, and the calls are those of
the full iterations followed by those of the unfinished one. -/
theorem decode_stop (s0 : σ) (P : List Call) (fuel : Nat) :
    ∀ i : Nat,
      (decode E n_threads n_tokens fuel i (run E n_threads n_tokens i 0 s0)
          (textUpTo E n_threads n_tokens s0 i)
          (P ++ callsUpTo E n_threads n_tokens s0 i)).value =
        .text (textUpTo E n_threads n_tokens s0
          (piecesAt (stopScan (obsAt E n_threads n_tokens s0) E.llama_token_eos fuel i))) ∧
      (decode E n_threads n_tokens fuel i (run E n_threads n_tokens i 0 s0)
          (textUpTo E n_threads n_tokens s0 i)
          (P ++ callsUpTo E n_threads n_tokens s0 i)).calls =
        P ++ callsUpTo E n_threads n_tokens s0
            (stopScan (obsAt E n_threads n_tokens s0) E.llama_token_eos fuel i).2 ++
          lastCalls
            (obsAt E n_threads n_tokens s0
              (stopScan (obsAt E n_threads n_tokens s0) E.llama_token_eos fuel i).2)
            n_tokens
            (stopScan (obsAt E n_threads n_tokens s0) E.llama_token_eos fuel i).2
            (stopScan (obsAt E n_threads n_tokens s0) E.llama_token_eos fuel i).1 := by
  induction fuel with
  | zero => intro i; simp [decode, stopScan, piecesAt, lastCalls]
  | succ fuel ih =>
    intro i
    by_cases h1 : (obsAt E n_threads n_tokens s0 i).token = E.llama_token_eos
    · have := decode_succ_eos E n_threads n_tokens fuel i (run E n_threads n_tokens i 0 s0)
        (textUpTo E n_threads n_tokens s0 i) (P ++ callsUpTo E n_threads n_tokens s0 i) h1
      simp [stopScan, h1, piecesAt, lastCalls, this.1, this.2]
    · by_cases h2 : (obsAt E n_threads n_tokens s0 i).len < 0
      · have := decode_succ_len E n_threads n_tokens fuel i (run E n_threads n_tokens i 0 s0)
          (textUpTo E n_threads n_tokens s0 i) (P ++ callsUpTo E n_threads n_tokens s0 i) h1 h2
        simp only [stopScan, h1, h2, piecesAt, lastCalls, this.1, this.2, if_false, if_true,
          List.append_assoc, true_and]
        rfl
      · by_cases h3 : (obsAt E n_threads n_tokens s0 i).rc ≠ 0
        · have := decode_succ_rc E n_threads n_tokens fuel i (run E n_threads n_tokens i 0 s0)
            (textUpTo E n_threads n_tokens s0 i) (P ++ callsUpTo E n_threads n_tokens s0 i)
            h1 (not_lt.mp h2) h3
          simp only [stopScan, h1, h2, h3, piecesAt, lastCalls, this.1, this.2, if_false,
            if_true, List.append_assoc, textUpTo_succ, ne_eq, not_false_eq_true, true_and]
          exact ⟨rfl, rfl⟩
        · have hc : (obsAt E n_threads n_tokens s0 i).continues E.llama_token_eos :=
            ⟨h1, not_lt.mp h2, not_not.mp h3⟩
          rw [decode_next E n_threads n_tokens s0 P fuel i hc]
          simpa [stopScan, h1, h2, h3] using ih (i + 1)

theorem stopScan_bounds (obs : Nat → StepObs σ) (eos : llama_token) (fuel : Nat) :
    ∀ i : Nat, i ≤ (stopScan obs eos fuel i).2 ∧ (stopScan obs eos fuel i).2 ≤ i + fuel ∧
      piecesAt (stopScan obs eos fuel i) ≤ i + fuel ∧
      ((stopScan obs eos fuel i).1 ≠ .MaxTokensReached →
        (stopScan obs eos fuel i).2 < i + fuel) := by
  induction fuel with
  | zero => intro i; simp [stopScan, piecesAt]
  | succ fuel ih =>
    intro i
    rw [stopScan]
    split_ifs
    · simp [piecesAt]
    · simp [piecesAt]
    · simp [piecesAt]
    · have := ih (i + 1)
      refine ⟨by omega, by omega, by omega, fun h => ?_⟩
      have := this.2.2.2 h
      omega

/-- A step that is reached, samples a token other than end-of-sequence and decodes
it lies before the count `piecesAt` of the stop: its evaluation is issued. -/
theorem stopScan_covers (obs : Nat → StepObs σ) (eos : llama_token) (fuel : Nat) :
    ∀ i j : Nat, i ≤ j → j < i + fuel →
      (∀ m, i ≤ m → m < j → (obs m).continues eos) →
      (obs j).token ≠ eos → 0 ≤ (obs j).len →
      j < piecesAt (stopScan obs eos fuel i) := by
  induction fuel with
  | zero => intro i j h1 h2; omega
  | succ fuel ih =>
    intro i j hij hj hreach htok hlen
    rcases Nat.eq_or_lt_of_le hij with h | h
    · subst h
      rw [stopScan, if_neg htok, if_neg (not_lt.mpr hlen)]
      split_ifs
      · simp [piecesAt]
      · have hb := stopScan_bounds obs eos fuel (i + 1)
        have hp : (stopScan obs eos fuel (i + 1)).2 ≤
            piecesAt (stopScan obs eos fuel (i + 1)) := by
          generalize stopScan obs eos fuel (i + 1) = st
          obtain ⟨r, k⟩ := st
          cases r <;> simp [piecesAt]
        omega
    · obtain ⟨c1, c2, c3⟩ := hreach i (Nat.le_refl i) h
      rw [stopScan, if_neg c1, if_neg (not_lt.mpr c2), if_neg (not_not.mpr c3)]
      exact ih (i + 1) j h (by omega) (fun m hm1 hm2 => hreach m (by omega) hm2) htok hlen

theorem evalCalls_append (xs ys : List Call) :
    evalCalls (xs ++ ys) = evalCalls xs ++ evalCalls ys := by
  induction xs with
  | nil => rfl
  | cons x xs ih => cases x <;> simp [evalCalls, ih]

theorem pieceCalls_append (xs ys : List Call) :
    pieceCalls (xs ++ ys) = pieceCalls xs + pieceCalls ys := by
  induction xs with
  | nil => simp [pieceCalls]
  | cons x xs ih =>
    cases x <;> simp [pieceCalls, ih]
    omega

/-- The evaluation made by decoding step `j`: its token alone, at `n_tokens + j`. -/
theorem evalCalls_callsUpTo (s0 : σ) (k : Nat) :
    evalCalls (callsUpTo E n_threads n_tokens s0 k) =
      (List.range k).map fun j =>
        ([(obsAt E n_threads n_tokens s0 j).token], (1 : Int), n_tokens + (j : Int)) := by
  induction k with
  | zero => rfl
  | succ k ih =>
    rw [callsUpTo_succ, evalCalls_append, ih, List.range_succ, List.map_append]
    rfl

theorem pieceCalls_callsUpTo (s0 : σ) (k : Nat) :
    pieceCalls (callsUpTo E n_threads n_tokens s0 k) = k := by
  induction k with
  | zero => rfl
  | succ k ih =>
    rw [callsUpTo_succ, pieceCalls_append, ih]
    rfl

theorem evalCalls_lastCalls (o : Nat → StepObs σ) (st : StopReason × Nat) :
    evalCalls (lastCalls (o st.2) n_tokens st.2 st.1) =
      (List.range' st.2 (piecesAt st - st.2)).map fun j =>
        ([(o j).token], (1 : Int), n_tokens + (j : Int)) := by
  obtain ⟨r, k⟩ := st
  cases r <;> simp [lastCalls, piecesAt, evalCalls, StepObs.calls]

end Loop


/-! ### `Generate` as a whole -/

section Request

variable {σ : Type} (E : Engine σ) (n_threads n_ctx : Int) (ctx : σ) (prompt : String)
  (rest : List String)

theorem generate_tokenize_fails
    (h : (promptObs E n_threads n_ctx ctx prompt).n_tokens < 0) :
    (Generate E n_threads n_ctx ctx (prompt :: rest)).value =
        .error .failed_to_tokenize_prompt ∧
      (Generate E n_threads n_ctx ctx (prompt :: rest)).calls = [Call.tokenize n_ctx] := by
  simp only [promptObs] at h
  simp only [Generate]
  rw [if_pos h]
  exact ⟨rfl, rfl⟩

theorem generate_eval_fails
    (h : 0 ≤ (promptObs E n_threads n_ctx ctx prompt).n_tokens)
    (h2 : (promptObs E n_threads n_ctx ctx prompt).rc ≠ 0) :
    (Generate E n_threads n_ctx ctx (prompt :: rest)).value =
        .error .failed_to_evaluate_prompt ∧
      (Generate E n_threads n_ctx ctx (prompt :: rest)).calls =
        (promptObs E n_threads n_ctx ctx prompt).calls n_ctx := by
  simp only [promptObs] at h h2
  simp only [Generate]
  rw [if_neg (not_lt.mpr h), if_pos h2]
  exact ⟨rfl, rfl⟩

theorem generate_decoding (h : promptOk E n_threads n_ctx ctx prompt) :
    Generate E n_threads n_ctx ctx (prompt :: rest) =
      decode E n_threads (promptObs E n_threads n_ctx ctx prompt).n_tokens
        max_tokens_to_generate 0 (promptObs E n_threads n_ctx ctx prompt).s0 []
        ((promptObs E n_threads n_ctx ctx prompt).calls n_ctx) := by
  obtain ⟨h1, h2⟩ := h
  simp only [promptObs] at h1 h2
  simp only [Generate]
  rw [if_neg (not_lt.mpr h1), if_neg (not_not.mpr h2)]
  rfl

/-- The result of a request whose prompt phase succeeds, by its stop. -/
theorem generate_stop (h : promptOk E n_threads n_ctx ctx prompt) :
    (Generate E n_threads n_ctx ctx (prompt :: rest)).value =
        .text (textOf E n_threads n_ctx ctx prompt
          (piecesAt (stopOf E n_threads n_ctx ctx prompt))) ∧
      (Generate E n_threads n_ctx ctx (prompt :: rest)).calls =
        (promptObs E n_threads n_ctx ctx prompt).calls n_ctx ++
          callsOf E n_threads n_ctx ctx prompt (stopOf E n_threads n_ctx ctx prompt).2 ++
          lastCalls
            (stepOf E n_threads n_ctx ctx prompt (stopOf E n_threads n_ctx ctx prompt).2)
            (promptObs E n_threads n_ctx ctx prompt).n_tokens
            (stopOf E n_threads n_ctx ctx prompt).2
            (stopOf E n_threads n_ctx ctx prompt).1 := by
  rw [generate_decoding E n_threads n_ctx ctx prompt rest h]
  have := decode_stop E n_threads (promptObs E n_threads n_ctx ctx prompt).n_tokens
    (promptObs E n_threads n_ctx ctx prompt).s0
    ((promptObs E n_threads n_ctx ctx prompt).calls n_ctx) max_tokens_to_generate 0
  simpa [run, textUpTo, callsUpTo, textOf, callsOf, stopOf, stepOf] using this

theorem stopOf_bounds :
    (stopOf E n_threads n_ctx ctx prompt).2 ≤ max_tokens_to_generate ∧
      piecesAt (stopOf E n_threads n_ctx ctx prompt) ≤ max_tokens_to_generate := by
  have := stopScan_bounds (stepOf E n_threads n_ctx ctx prompt) E.llama_token_eos
    max_tokens_to_generate 0
  simp only [Nat.zero_add] at this
  exact ⟨this.2.1, this.2.2.1⟩

/-- The evaluations of a request whose prompt phase succeeds: the prompt at
position `0`, then one token per appended piece at consecutive positions. -/
theorem generate_evalCalls (h : promptOk E n_threads n_ctx ctx prompt) :
    evalCalls (Generate E n_threads n_ctx ctx (prompt :: rest)).calls =
      ((promptObs E n_threads n_ctx ctx prompt).tokens,
        (promptObs E n_threads n_ctx ctx prompt).n_tokens, (0 : Int)) ::
      (List.range (piecesAt (stopOf E n_threads n_ctx ctx prompt))).map fun j =>
        ([(stepOf E n_threads n_ctx ctx prompt j).token], (1 : Int),
          (promptObs E n_threads n_ctx ctx prompt).n_tokens + (j : Int)) := by
  rw [(generate_stop E n_threads n_ctx ctx prompt rest h).2, evalCalls_append, evalCalls_append,
    evalCalls_lastCalls, callsOf, evalCalls_callsUpTo]
  have hb := stopScan_bounds (stepOf E n_threads n_ctx ctx prompt) E.llama_token_eos
    max_tokens_to_generate 0
  generalize stopOf E n_threads n_ctx ctx prompt = st
  obtain ⟨r, k⟩ := st
  cases r <;> simp [piecesAt, PromptObs.calls, evalCalls, stepOf, List.range_succ]

theorem generate_pieceCalls (h : promptOk E n_threads n_ctx ctx prompt) :
    pieceCalls (Generate E n_threads n_ctx ctx (prompt :: rest)).calls ≤
      max_tokens_to_generate := by
  rw [(generate_stop E n_threads n_ctx ctx prompt rest h).2, pieceCalls_append,
    pieceCalls_append, callsOf, pieceCalls_callsUpTo]
  have hb := stopScan_bounds (stepOf E n_threads n_ctx ctx prompt) E.llama_token_eos
    max_tokens_to_generate 0
  have hs : stopOf E n_threads n_ctx ctx prompt =
      stopScan (stepOf E n_threads n_ctx ctx prompt) E.llama_token_eos
        max_tokens_to_generate 0 := rfl
  rw [← hs] at hb
  generalize stopOf E n_threads n_ctx ctx prompt = st at hb ⊢
  obtain ⟨r, k⟩ := st
  cases r <;>
    simp only [piecesAt, PromptObs.calls, pieceCalls, lastCalls, StepObs.calls,
      Nat.zero_add, ne_eq, not_true_eq_false, not_false_eq_true, false_implies,
      true_implies, reduceCtorEq] at hb ⊢ <;>
    omega

end Request

/-! ## The claims about `Generate` -/

section Claims

variable {σ : Type} (E : Engine σ) (n_threads n_ctx : Int) (ctx : σ) (prompt : String)
  (rest : List String)

/-- C1, as stated, fails: with capacity `n_ctx = 4` and a tokenizer count of `4`, the
count `4 ≥ n_ctx` is forwarded to the prompt evaluation and `Generate` returns a text;
no error is raised. -/
theorem C1_counterexample :
    (4 : Int) ≤ (promptObs (scripted 4 0 [65] []) 1 4 0 "p").n_tokens ∧
    (Generate (scripted 4 0 [65] []) 1 4 0 ["p"]).value = .text [65] ∧
    (Generate (scripted 4 0 [65] []) 1 4 0 ["p"]).calls =
      [Call.tokenize 4, Call.eval [1, 1, 1, 1] 4 0, Call.get_logits, Call.sample,
        Call.token_to_piece 65, Call.eval [65] 1 4, Call.get_logits, Call.sample] := by
  decide

/-- C1, amended: when the tokenizer's count is non-negative and at least `n_ctx`,
`Generate` makes no capacity check. The count is forwarded to the prompt evaluation,
the first call after tokenizing (count `n_tokens`, position `0`); `Generate` throws
exactly when that evaluation fails, and then the prompt-evaluation error: a
capacity error does not exist. -/
theorem C1_count_forwarded_unchecked
    (hn : 0 ≤ (promptObs E n_threads n_ctx ctx prompt).n_tokens)
    (_hcap : n_ctx ≤ (promptObs E n_threads n_ctx ctx prompt).n_tokens) :
    (Generate E n_threads n_ctx ctx (prompt :: rest)).calls.take 2 =
        [Call.tokenize n_ctx,
          Call.eval (promptObs E n_threads n_ctx ctx prompt).tokens
            (promptObs E n_threads n_ctx ctx prompt).n_tokens 0] ∧
      ((∃ e, (Generate E n_threads n_ctx ctx (prompt :: rest)).value = .error e) ↔
        (promptObs E n_threads n_ctx ctx prompt).rc ≠ 0) ∧
      (∀ e, (Generate E n_threads n_ctx ctx (prompt :: rest)).value = .error e →
        e = .failed_to_evaluate_prompt) := by
  by_cases hrc : (promptObs E n_threads n_ctx ctx prompt).rc = 0
  · have hs := generate_stop E n_threads n_ctx ctx prompt rest ⟨hn, hrc⟩
    rw [hs.1, hs.2]
    simp [PromptObs.calls, hrc]
  · have hf := generate_eval_fails E n_threads n_ctx ctx prompt rest hn hrc
    rw [hf.1, hf.2]
    simp [PromptObs.calls, hrc]

/-- C1, amended, at a concrete request: capacity `4`, count `4`. -/
theorem C1_count_forwarded_unchecked_witness :
    (Generate (scripted 4 0 [65] []) 1 4 0 ["p"]).calls.take 2 =
        [Call.tokenize 4,
          Call.eval (promptObs (scripted 4 0 [65] []) 1 4 0 "p").tokens
            (promptObs (scripted 4 0 [65] []) 1 4 0 "p").n_tokens 0] ∧
      ((∃ e, (Generate (scripted 4 0 [65] []) 1 4 0 ["p"]).value = .error e) ↔
        (promptObs (scripted 4 0 [65] []) 1 4 0 "p").rc ≠ 0) ∧
      (∀ e, (Generate (scripted 4 0 [65] []) 1 4 0 ["p"]).value = .error e →
        e = .failed_to_evaluate_prompt) :=
  C1_count_forwarded_unchecked (scripted 4 0 [65] []) 1 4 0 "p" [] (by decide) (by decide)

/-- C5: `Generate` (called with a prompt) throws if and only if the prompt phase fails,
that is the tokenizer reports a negative count or the prompt evaluation reports
failure; in both cases no call of a decoding step is made. When the prompt phase
succeeds, every exit of the loop (end-of-sequence, decode failure, evaluation failure,
bound reached) returns a text. -/
theorem C5_error_iff_prompt_phase_fails :
    ((∃ e, (Generate E n_threads n_ctx ctx (prompt :: rest)).value = .error e) ↔
        ((promptObs E n_threads n_ctx ctx prompt).n_tokens < 0 ∨
          (0 ≤ (promptObs E n_threads n_ctx ctx prompt).n_tokens ∧
            (promptObs E n_threads n_ctx ctx prompt).rc ≠ 0))) ∧
      ((promptObs E n_threads n_ctx ctx prompt).n_tokens < 0 →
        (Generate E n_threads n_ctx ctx (prompt :: rest)).value =
            .error .failed_to_tokenize_prompt ∧
          (Generate E n_threads n_ctx ctx (prompt :: rest)).calls = [Call.tokenize n_ctx]) ∧
      (0 ≤ (promptObs E n_threads n_ctx ctx prompt).n_tokens →
        (promptObs E n_threads n_ctx ctx prompt).rc ≠ 0 →
        (Generate E n_threads n_ctx ctx (prompt :: rest)).value =
            .error .failed_to_evaluate_prompt ∧
          (Generate E n_threads n_ctx ctx (prompt :: rest)).calls =
            [Call.tokenize n_ctx,
              Call.eval (promptObs E n_threads n_ctx ctx prompt).tokens
                (promptObs E n_threads n_ctx ctx prompt).n_tokens 0]) ∧
      (promptOk E n_threads n_ctx ctx prompt →
        (Generate E n_threads n_ctx ctx (prompt :: rest)).value =
          .text (textOf E n_threads n_ctx ctx prompt
            (piecesAt (stopOf E n_threads n_ctx ctx prompt)))) := by
  refine ⟨?_, fun hn => generate_tokenize_fails E n_threads n_ctx ctx prompt rest hn,
    fun hn hrc => generate_eval_fails E n_threads n_ctx ctx prompt rest hn hrc,
    fun hok => (generate_stop E n_threads n_ctx ctx prompt rest hok).1⟩
  by_cases hn : (promptObs E n_threads n_ctx ctx prompt).n_tokens < 0
  · rw [(generate_tokenize_fails E n_threads n_ctx ctx prompt rest hn).1]
    simp [hn]
  · by_cases hrc : (promptObs E n_threads n_ctx ctx prompt).rc = 0
    · rw [(generate_stop E n_threads n_ctx ctx prompt rest ⟨not_lt.mp hn, hrc⟩).1]
      simp [hn, hrc]
    · rw [(generate_eval_fails E n_threads n_ctx ctx prompt rest (not_lt.mp hn) hrc).1]
      simp [hrc, not_lt.mp hn]

/-- C6: if the prompt phase succeeds, the steps `0 .. i-1` all go on and the token
sampled at step `i < 256` is end-of-sequence, then `Generate` stops at step `i` right
after sampling (the token is neither decoded nor evaluated) and returns exactly the
concatenation of the pieces of the steps `0 .. i-1`. -/
theorem C6_eos_stops_without_bytes (i : Nat)
    (hok : promptOk E n_threads n_ctx ctx prompt)
    (hi : i < max_tokens_to_generate)
    (hreach : ∀ j, j < i →
      (stepOf E n_threads n_ctx ctx prompt j).continues E.llama_token_eos)
    (heos : (stepOf E n_threads n_ctx ctx prompt i).token = E.llama_token_eos) :
    (Generate E n_threads n_ctx ctx (prompt :: rest)).value =
        .text (textOf E n_threads n_ctx ctx prompt i) ∧
      (Generate E n_threads n_ctx ctx (prompt :: rest)).calls =
        (promptObs E n_threads n_ctx ctx prompt).calls n_ctx ++
          callsOf E n_threads n_ctx ctx prompt i ++ [Call.get_logits, Call.sample] := by
  obtain ⟨m, hm⟩ : ∃ m, max_tokens_to_generate = i + (m + 1) :=
    ⟨max_tokens_to_generate - i - 1, by omega⟩
  rw [generate_decoding E n_threads n_ctx ctx prompt rest hok, hm,
    decode_reach E n_threads _ _ _ i (m + 1) hreach]
  exact decode_succ_eos E n_threads _ m i _ _ _ heos

/-- C6 at a concrete request: the tokens `65, 66` and then end-of-sequence. -/
theorem C6_eos_stops_without_bytes_witness :
    (Generate (scripted 3 0 [65, 66, 2, 67] []) 1 8 0 ["p"]).value = .text [65, 66] ∧
      (Generate (scripted 3 0 [65, 66, 2, 67] []) 1 8 0 ["p"]).calls =
        (promptObs (scripted 3 0 [65, 66, 2, 67] []) 1 8 0 "p").calls 8 ++
          callsOf (scripted 3 0 [65, 66, 2, 67] []) 1 8 0 "p" 2 ++
          [Call.get_logits, Call.sample] :=
  C6_eos_stops_without_bytes (scripted 3 0 [65, 66, 2, 67] []) 1 8 0 "p" [] 2
    (by decide) (by decide) (by decide) (by decide)

/-- C7: when the prompt phase succeeds and the steps `0 .. i-1` all go on, a failure at
step `i < 256` keeps the text accumulated so far. If decoding the token of step `i`
fails (negative length), the text is the concatenation of the pieces of the steps
`0 .. i-1`; if its evaluation fails, the text is that of the steps `0 .. i`, the piece
of the token whose evaluation failed included. -/
theorem C7_failures_keep_text (i : Nat)
    (hok : promptOk E n_threads n_ctx ctx prompt)
    (hi : i < max_tokens_to_generate)
    (hreach : ∀ j, j < i →
      (stepOf E n_threads n_ctx ctx prompt j).continues E.llama_token_eos)
    (hne : (stepOf E n_threads n_ctx ctx prompt i).token ≠ E.llama_token_eos) :
    ((stepOf E n_threads n_ctx ctx prompt i).len < 0 →
        (Generate E n_threads n_ctx ctx (prompt :: rest)).value =
          .text (textOf E n_threads n_ctx ctx prompt i)) ∧
      (0 ≤ (stepOf E n_threads n_ctx ctx prompt i).len →
        (stepOf E n_threads n_ctx ctx prompt i).rc ≠ 0 →
        (Generate E n_threads n_ctx ctx (prompt :: rest)).value =
            .text (textOf E n_threads n_ctx ctx prompt (i + 1)) ∧
          textOf E n_threads n_ctx ctx prompt (i + 1) =
            textOf E n_threads n_ctx ctx prompt i ++
              (stepOf E n_threads n_ctx ctx prompt i).piece) := by
  obtain ⟨m, hm⟩ : ∃ m, max_tokens_to_generate = i + (m + 1) :=
    ⟨max_tokens_to_generate - i - 1, by omega⟩
  have hgen := generate_decoding E n_threads n_ctx ctx prompt rest hok
  rw [hm, decode_reach E n_threads _ _ _ i (m + 1) hreach] at hgen
  constructor
  · intro hlen
    rw [hgen]
    exact (decode_succ_len E n_threads _ m i _ _ _ hne hlen).1
  · intro hlen hrc
    rw [hgen]
    refine ⟨?_, textUpTo_succ E n_threads _ _ i⟩
    rw [(decode_succ_rc E n_threads _ m i _ _ _ hne hlen hrc).1, textOf, textUpTo_succ]
    rfl

/-- C7 at two concrete requests: one whose second token fails to decode, one whose
second token fails to evaluate. -/
theorem C7_failures_keep_text_witness :
    (Generate (scripted 3 0 [65, -1, 67] []) 1 8 0 ["p"]).value = .text [65] ∧
      (Generate (scripted 3 0 [65, 66, 67] [0, 1]) 1 8 0 ["p"]).value = .text [65, 66] :=
  ⟨(C7_failures_keep_text (scripted 3 0 [65, -1, 67] []) 1 8 0 "p" [] 1
      (by decide) (by decide) (by decide) (by decide)).1 (by decide),
    ((C7_failures_keep_text (scripted 3 0 [65, 66, 67] [0, 1]) 1 8 0 "p" [] 1
      (by decide) (by decide) (by decide) (by decide)).2 (by decide) (by decide)).1⟩

/-- C8: one `Generate` request issues at most `max_tokens_to_generate + 1` evaluate
calls (the prompt evaluation and at most one per decoding step), makes at most
`max_tokens_to_generate` token-to-piece calls, and a returned text is the concatenation
of the pieces of at most `max_tokens_to_generate` steps. -/
theorem C8_at_most_max_tokens_steps :
    (evalCalls (Generate E n_threads n_ctx ctx (prompt :: rest)).calls).length ≤
        max_tokens_to_generate + 1 ∧
      pieceCalls (Generate E n_threads n_ctx ctx (prompt :: rest)).calls ≤
        max_tokens_to_generate ∧
      (∀ r, (Generate E n_threads n_ctx ctx (prompt :: rest)).value = .text r →
        ∃ k, k ≤ max_tokens_to_generate ∧ r = textOf E n_threads n_ctx ctx prompt k) := by
  by_cases hn : (promptObs E n_threads n_ctx ctx prompt).n_tokens < 0
  · have hf := generate_tokenize_fails E n_threads n_ctx ctx prompt rest hn
    rw [hf.1, hf.2]
    simp [evalCalls, pieceCalls]
  · by_cases hrc : (promptObs E n_threads n_ctx ctx prompt).rc = 0
    · have hok : promptOk E n_threads n_ctx ctx prompt := ⟨not_lt.mp hn, hrc⟩
      have hb := (stopOf_bounds E n_threads n_ctx ctx prompt).2
      refine ⟨?_, generate_pieceCalls E n_threads n_ctx ctx prompt rest hok, ?_⟩
      · rw [generate_evalCalls E n_threads n_ctx ctx prompt rest hok]
        simpa using hb
      · intro r hr
        rw [(generate_stop E n_threads n_ctx ctx prompt rest hok).1] at hr
        exact ⟨_, hb, (Returned.text.inj hr).symm⟩
    · have hf := generate_eval_fails E n_threads n_ctx ctx prompt rest (not_lt.mp hn) hrc
      rw [hf.1, hf.2]
      simp [evalCalls, pieceCalls, PromptObs.calls]

/-- C9, as stated, fails: a request that stops at end-of-sequence and a request that
stops at a decode failure, both after the piece `65`, return the same value. -/
theorem C9_counterexample :
    (stopOf (scripted 3 0 [65, 2] []) 1 8 0 "p").1 = .EOS ∧
      (stopOf (scripted 3 0 [65, -1] []) 1 8 0 "p").1 = .DecodeFailure ∧
      (Generate (scripted 3 0 [65, 2] []) 1 8 0 ["p"]).value =
        (Generate (scripted 3 0 [65, -1] []) 1 8 0 ["p"]).value := by
  decide

/-- C9, amended: the value `Generate` returns is the accumulated text alone. Two
requests whose prompt phases succeed and that accumulate the same text return the same
value, whatever the reasons for which they stop. -/
theorem C9_result_is_text_only {τ : Type} (F : Engine τ) (m_threads m_ctx : Int) (ctx2 : τ)
    (prompt2 : String) (rest2 : List String)
    (hok : promptOk E n_threads n_ctx ctx prompt)
    (hok2 : promptOk F m_threads m_ctx ctx2 prompt2)
    (htext : textOf E n_threads n_ctx ctx prompt
        (piecesAt (stopOf E n_threads n_ctx ctx prompt)) =
      textOf F m_threads m_ctx ctx2 prompt2
        (piecesAt (stopOf F m_threads m_ctx ctx2 prompt2))) :
    (Generate E n_threads n_ctx ctx (prompt :: rest)).value =
      (Generate F m_threads m_ctx ctx2 (prompt2 :: rest2)).value := by
  rw [(generate_stop E n_threads n_ctx ctx prompt rest hok).1,
    (generate_stop F m_threads m_ctx ctx2 prompt2 rest2 hok2).1, htext]

/-- C9, amended, at two concrete requests: one stops at an evaluation failure, the
other at a decode failure, both with the text `65`. -/
theorem C9_result_is_text_only_witness :
    (stopOf (scripted 3 0 [65] [1]) 1 8 0 "p").1 = .EvaluationFailure ∧
      (stopOf (scripted 5 0 [65, -1] []) 2 16 0 "q").1 = .DecodeFailure ∧
      (Generate (scripted 3 0 [65] [1]) 1 8 0 ["p"]).value =
        (Generate (scripted 5 0 [65, -1] []) 2 16 0 ["q"]).value :=
  ⟨by decide, by decide,
    C9_result_is_text_only (scripted 3 0 [65] [1]) 1 8 0 "p" []
      (scripted 5 0 [65, -1] []) 2 16 0 "q" [] (by decide) (by decide) (by decide)⟩

/-- C10: in every `Generate` call whose tokenizer count is not negative, whatever state
earlier calls left the session in, the evaluate calls are: the whole prompt, `n_tokens`
tokens at position `0`; then, when that evaluation succeeds, for the decoding steps
`j = 0, 1, ...` in order, the token sampled at step `j` alone at position
`n_tokens + j`, with no gap and no repeat. The steps evaluated are exactly those before
the stop (the stopping step included when it stops at its own failed evaluation), at
most `max_tokens_to_generate`; every step that is reached and whose token is not
end-of-sequence and decodes is among them. -/
theorem C10_evaluation_positions
    (hn : 0 ≤ (promptObs E n_threads n_ctx ctx prompt).n_tokens) :
    ((promptObs E n_threads n_ctx ctx prompt).rc ≠ 0 →
        evalCalls (Generate E n_threads n_ctx ctx (prompt :: rest)).calls =
          [((promptObs E n_threads n_ctx ctx prompt).tokens,
            (promptObs E n_threads n_ctx ctx prompt).n_tokens, (0 : Int))]) ∧
      ((promptObs E n_threads n_ctx ctx prompt).rc = 0 →
        evalCalls (Generate E n_threads n_ctx ctx (prompt :: rest)).calls =
            ((promptObs E n_threads n_ctx ctx prompt).tokens,
              (promptObs E n_threads n_ctx ctx prompt).n_tokens, (0 : Int)) ::
            (List.range (piecesAt (stopOf E n_threads n_ctx ctx prompt))).map (fun j =>
              ([(stepOf E n_threads n_ctx ctx prompt j).token], (1 : Int),
                (promptObs E n_threads n_ctx ctx prompt).n_tokens + (j : Int))) ∧
          piecesAt (stopOf E n_threads n_ctx ctx prompt) ≤ max_tokens_to_generate ∧
          ∀ j, j < max_tokens_to_generate →
            (∀ m, m < j →
              (stepOf E n_threads n_ctx ctx prompt m).continues E.llama_token_eos) →
            (stepOf E n_threads n_ctx ctx prompt j).token ≠ E.llama_token_eos →
            0 ≤ (stepOf E n_threads n_ctx ctx prompt j).len →
            j < piecesAt (stopOf E n_threads n_ctx ctx prompt)) := by
  constructor
  · intro hrc
    rw [(generate_eval_fails E n_threads n_ctx ctx prompt rest hn hrc).2]
    simp [PromptObs.calls, evalCalls]
  · intro hrc
    refine ⟨generate_evalCalls E n_threads n_ctx ctx prompt rest ⟨hn, hrc⟩,
      (stopOf_bounds E n_threads n_ctx ctx prompt).2, ?_⟩
    intro j hj hreach htok hlen
    exact stopScan_covers (stepOf E n_threads n_ctx ctx prompt) E.llama_token_eos
      max_tokens_to_generate 0 j (Nat.zero_le j) (by omega)
      (fun m _ hm => hreach m hm) htok hlen

/-- C10 at a concrete session: the second request on a session that has already
served one evaluates its prompt at position `0` again, then the tokens `66` and `67`
it samples, alone, at the positions `3` and `4`. -/
theorem C10_evaluation_positions_witness :
    (0 : Int) ≤ (promptObs (scripted 3 0 [65, 2, 66, 67, 2] []) 1 8
        (Generate (scripted 3 0 [65, 2, 66, 67, 2] []) 1 8 0 ["p"]).ctx "q").n_tokens ∧
    evalCalls (Generate (scripted 3 0 [65, 2, 66, 67, 2] []) 1 8
        (Generate (scripted 3 0 [65, 2, 66, 67, 2] []) 1 8 0 ["p"]).ctx ["q"]).calls =
      [([1, 1, 1], 3, 0), ([66], 1, 3), ([67], 1, 4)] ∧
    (1 : Nat) < piecesAt (stopOf (scripted 3 0 [65, 2, 66, 67, 2] []) 1 8
        (Generate (scripted 3 0 [65, 2, 66, 67, 2] []) 1 8 0 ["p"]).ctx "q") :=
  ⟨by decide,
    (((C10_evaluation_positions (scripted 3 0 [65, 2, 66, 67, 2] []) 1 8
      (Generate (scripted 3 0 [65, 2, 66, 67, 2] []) 1 8 0 ["p"]).ctx "q" []
      (by decide)).2 (by decide)).1).trans (by decide),
    ((C10_evaluation_positions (scripted 3 0 [65, 2, 66, 67, 2] []) 1 8
      (Generate (scripted 3 0 [65, 2, 66, 67, 2] []) 1 8 0 ["p"]).ctx "q" []
      (by decide)).2 (by decide)).2.2 1 (by decide) (by decide) (by decide) (by decide)⟩

end Claims

/-! ## The claims about the constructor and the destructor -/

section Lifecycle

theorem new_count_backend_init (L : Loader) (fresh : LlamaContext) (info : CallbackInfo) :
    (LlamaContext.new L fresh info).calls.count .backend_init =
      if info.length < 3 then 0 else 1 := by
  simp only [LlamaContext.new]
  split_ifs <;> simp

theorem new_count_backend_free (L : Loader) (fresh : LlamaContext) (info : CallbackInfo) :
    (LlamaContext.new L fresh info).calls.count .backend_free = 0 := by
  simp only [LlamaContext.new]
  split_ifs <;> simp

theorem delete_count_backend_init (o : LlamaContext) :
    o.delete.count .backend_init = 0 := by
  unfold LlamaContext.delete
  split_ifs <;> simp

theorem delete_count_backend_free (o : LlamaContext) :
    o.delete.count .backend_free = 1 := by
  unfold LlamaContext.delete
  split_ifs <;> simp

/-- The counts of backend calls along any sequence of events, from any process state. -/
theorem run_counts (ops : List Op) :
    ∀ p : Process,
      (p.run ops).log.count .backend_init =
          p.log.count .backend_init + constructions ops ∧
        (p.run ops).log.count .backend_free + (p.run ops).objects.length =
          p.log.count .backend_free + p.objects.length + constructorCalls ops := by
  induction ops with
  | nil => intro p; simp [Process.run, constructions, constructorCalls]
  | cons op ops ih =>
    intro p
    have h := ih (p.step op)
    have hr : p.run (op :: ops) = (p.step op).run ops := rfl
    rw [hr, h.1, h.2]
    cases op with
    | construct L fresh info =>
      simp only [Process.step, List.count_append, new_count_backend_init,
        new_count_backend_free, constructions, constructorCalls, List.length_append,
        List.length_singleton]
      constructor <;> omega
    | destroy k =>
      simp only [Process.step, constructions, constructorCalls]
      cases hk : p.objects.get? k with
      | none => simp
      | some o =>
        have hlt : k < p.objects.length := by
          rcases Nat.lt_or_ge k p.objects.length with h | h
          · exact h
          · rw [List.get?_eq_none.mpr h] at hk; cases hk
        simp only [List.count_append, delete_count_backend_init, delete_count_backend_free,
          List.length_eraseIdx, hlt, if_true]
        constructor <;> omega

/-- C3, as stated, fails: construct two instances successfully, then destroy the
second. The backend has been initialised twice, and the last native call is
`llama_backend_free` although one instance is still live. -/
theorem C3_counterexample :
    ((Process.start.run
        [Op.construct (fixedLoader 7 8) (freshObject 0 0) ⟨3, "a", 4, 512⟩,
          Op.construct (fixedLoader 9 10) (freshObject 0 0) ⟨3, "b", 4, 512⟩,
          Op.destroy 1]).log.count .backend_init = 2) ∧
      ((Process.start.run
        [Op.construct (fixedLoader 7 8) (freshObject 0 0) ⟨3, "a", 4, 512⟩,
          Op.construct (fixedLoader 9 10) (freshObject 0 0) ⟨3, "b", 4, 512⟩,
          Op.destroy 1]).log.getLast? = some .backend_free) ∧
      ((Process.start.run
        [Op.construct (fixedLoader 7 8) (freshObject 0 0) ⟨3, "a", 4, 512⟩,
          Op.construct (fixedLoader 9 10) (freshObject 0 0) ⟨3, "b", 4, 512⟩,
          Op.destroy 1]).live = 1) := by
  decide

/-- C3, amended: over every sequence of constructions and destructions, the backend is
initialised once per constructor call that receives at least three arguments, and
`llama_backend_free` is called once per destruction, whether or not other instances
are live: the number of its calls is the number of objects constructed minus the
number of objects not yet destroyed. -/
theorem C3_backend_calls_per_instance (ops : List Op) :
    (Process.start.run ops).log.count .backend_init = constructions ops ∧
      (Process.start.run ops).log.count .backend_free +
          (Process.start.run ops).objects.length =
        constructorCalls ops := by
  have h := run_counts ops Process.start
  simpa [Process.start] using h

/-- C4 fails when the model loads and the context cannot be created: the constructor
releases the model and leaves `model` set, so the destructor releases the same model
again. -/
theorem C4_context_failure_releases_model_twice :
    (LlamaContext.new (fixedLoader 7 0) (freshObject 0 0) ⟨3, "a", 4, 512⟩).thrown =
        some .failed_to_create_context ∧
      (LlamaContext.new (fixedLoader 7 0) (freshObject 0 0) ⟨3, "a", 4, 512⟩).calls ++
          (LlamaContext.new (fixedLoader 7 0) (freshObject 0 0) ⟨3, "a", 4, 512⟩).self.delete =
        [.backend_init, .load_model "a", .new_context 7 512 4, .free_model 7,
          .free_model 7, .backend_free] := by
  decide

end Lifecycle

end LlamaNode
